import Mathlib

/-!
Shallow embedding of the Bedrock inline-agents SDK core
(`bedrock_agents_sdk/core/client.py` and
`bedrock_agents_sdk/utils/parameter_conversion.py`), together with proofs
about the invocation loop, the parameter converter, the schema builder and
the run-entry validation.

Modelling conventions:
* Python strings are `String`; byte payloads are carried as `String` stand-ins.
* Python `float` values are modelled as exact rationals (`Rat`); the model
  of the built-in `float(...)` parser covers signed decimal literals with an
  optional fraction and exponent (it omits `inf`/`nan`, underscores and
  surrounding whitespace, none of which matter for the claims below).
* Fallible Python code is modelled with `Option`/`Except`; an exception
  raised inside the `try` block of `Client._invoke_agent` is an
  `Except.error` that the generic handler turns into the
  "An error occurred: ..." result, exactly as in the source.
-/

namespace BedrockSDK

/-- A Python float, carried as the exact decimal value `num / den` with
`den` a power of ten, exactly as produced by parsing a decimal literal.
(The binary rounding of CPython floats is not modelled; for the decimal
literals the claims exercise, integrality and zeroness agree.) -/
structure PyFloat where
  num : Int
  den : Nat
deriving DecidableEq

/-- Python runtime values, as far as the SDK observes them: tool results and
converted parameters. -/
inductive PyValue where
  | none
  | bool (b : Bool)
  | int (n : Int)
  | float (f : PyFloat)
  | str (s : String)
  | list (xs : List PyValue)
  | dict (entries : List (String × PyValue))

/-- Python truthiness (`if not result:` in `client.py` line 353). -/
def pyTruthy : PyValue → Bool
  | PyValue.none => false
  | PyValue.bool b => b
  | PyValue.int n => n != 0
  | PyValue.float f => f.num != 0
  | PyValue.str s => s != ""
  | PyValue.list xs => !xs.isEmpty
  | PyValue.dict es => !es.isEmpty

/-- Numeric value of a digit string (most significant first). -/
def digitsVal (ds : List Char) : Nat :=
  ds.foldl (fun a c => a * 10 + (c.toNat - 48)) 0

/-- A non-empty all-digit character list, or failure. -/
def parseDigitsNat (cs : List Char) : Option Nat :=
  if cs ≠ [] ∧ cs.all Char.isDigit then Option.some (digitsVal cs) else Option.none

/-- Exponent digits with an optional sign, fully consumed. -/
def parseSignedDigits : List Char → Option Int
  | '+' :: rest => (parseDigitsNat rest).map Int.ofNat
  | '-' :: rest => (parseDigitsNat rest).map (fun n => -(n : Int))
  | cs => (parseDigitsNat cs).map Int.ofNat

/-- The trailing exponent part of a float literal: empty, or `e`/`E`
followed by signed digits. -/
def parseExponentPart : List Char → Option Int
  | [] => Option.some 0
  | 'e' :: rest => parseSignedDigits rest
  | 'E' :: rest => parseSignedDigits rest
  | _ => Option.none

/-- Combine a digit mantissa `m`, a fraction length `fracLen` and a decimal
exponent `e` into the exact value `m / 10 ^ fracLen * 10 ^ e`. -/
def applyExponent (m : Nat) (fracLen : Nat) (e : Int) : PyFloat :=
  let shift : Int := e - (fracLen : Int)
  if 0 ≤ shift then ⟨(m : Int) * ((10 : Nat) ^ shift.toNat : Nat), 1⟩
  else ⟨(m : Int), (10 : Nat) ^ (-shift).toNat⟩

/-- Unsigned part of a float literal: `digits [. digits] [exp]` or
`. digits [exp]`, fully consumed. -/
def parseUnsignedFloat (cs : List Char) : Option PyFloat :=
  let ip := cs.takeWhile Char.isDigit
  let rest := cs.dropWhile Char.isDigit
  match rest with
  | '.' :: rest2 =>
      let fp := rest2.takeWhile Char.isDigit
      let rest3 := rest2.dropWhile Char.isDigit
      if ip.isEmpty && fp.isEmpty then Option.none
      else
        match parseExponentPart rest3 with
        | Option.none => Option.none
        | Option.some e =>
            Option.some
              (applyExponent (digitsVal ip * 10 ^ fp.length + digitsVal fp)
                fp.length e)
  | _ =>
      if ip.isEmpty then Option.none
      else
        match parseExponentPart rest with
        | Option.none => Option.none
        | Option.some e => Option.some (applyExponent (digitsVal ip) 0 e)

/-- Negation of a parsed float. -/
def pyFloatNeg (f : PyFloat) : PyFloat := ⟨-f.num, f.den⟩

/-- Model of Python `float(value)` on decimal literals: `Option.none` is the
`ValueError` raised on a malformed literal.  (`inf`/`nan`, underscores and
surrounding whitespace are outside the model.) -/
def parseFloat (s : String) : Option PyFloat :=
  match s.data with
  | '+' :: rest => parseUnsignedFloat rest
  | '-' :: rest => (parseUnsignedFloat rest).map pyFloatNeg
  | cs => parseUnsignedFloat cs

/-- Python `str.lower()` on ASCII data (character-wise lowering). -/
def pyLower (s : String) : String :=
  ⟨s.data.map Char.toLower⟩

/-- One name/value/type triple as sent by the remote endpoint
(`convert_parameters` input items). -/
structure ParamEntry where
  name : String
  value : String
  type : String

/-- Per-entry conversion step of `convert_parameters`
(`utils/parameter_conversion.py` lines 23-38).  `Option.none` is the
`continue` taken when a numeric literal fails to parse; otherwise the entry
contributes the converted (or passed-through) value. -/
def convertOne (p : ParamEntry) : Option PyValue :=
  if p.type = "number" then
    match parseFloat p.value with
    | Option.none => Option.none
    | Option.some f =>
        Option.some
          (if f.num % (f.den : Int) = 0 then PyValue.int (f.num / (f.den : Int))
           else PyValue.float f)
  else if p.type = "boolean" then
    if ["true", "yes", "1"].contains (pyLower p.value) then
      Option.some (PyValue.bool true)
    else if ["false", "no", "0"].contains (pyLower p.value) then
      Option.some (PyValue.bool false)
    else Option.some (PyValue.str p.value)
  else Option.some (PyValue.str p.value)

/-- Python-dict assignment `d[k] = v`: overwrite in place when the key is
present, else append. -/
def dictInsert (d : List (String × PyValue)) (k : String) (v : PyValue) :
    List (String × PyValue) :=
  if d.any (fun p => p.1 = k) then
    d.map (fun p => if p.1 = k then (k, v) else p)
  else d ++ [(k, v)]

/-- `convert_parameters` (`utils/parameter_conversion.py`): fold the entries
in order into a parameter dictionary, skipping entries whose numeric value
fails to parse. -/
def convert_parameters (ps : List ParamEntry) : List (String × PyValue) :=
  ps.foldl
    (fun d p =>
      match convertOne p with
      | Option.none => d
      | Option.some v => dictInsert d p.name v)
    []

/-- Text accumulation across turns (`client.py` lines 312-317): append the
turn's chunk, inserting a newline separator only when both sides are
non-empty. -/
def joinText (acc chunk : String) : String :=
  if chunk = "" then acc
  else if acc = "" then chunk
  else acc ++ "\n" ++ chunk

/-- A file parsed out of a remote response (`OutputFile`). -/
structure OutputFile where
  name : String
  content : String
  type : String
deriving DecidableEq

/-- The `functionInvocationInput` record inside a returnControl event. -/
structure FunctionInvocationInput where
  function : String
  actionGroup : String
  parameters : List ParamEntry

/-- The `returnControl` payload of a remote response event. -/
structure ReturnControlPayload where
  invocationId : String
  invocationInputs : List FunctionInvocationInput

/-- One event of the remote response's `completion` sequence. -/
inductive AgentEvent where
  | returnControl (rc : ReturnControlPayload)
  | chunk (text : String)
  | files (fs : List OutputFile)
  | trace

/-- Outcome of scanning one turn's event sequence. -/
structure ScanResult where
  returnControl : Option ReturnControlPayload
  responseText : String
  outputFiles : List OutputFile

/-- The event-scanning loop of `Client._invoke_agent` (lines 292-310):
concatenate text chunks and collect file records in order, stopping at the
first `returnControl` event. -/
def scanEvents : List AgentEvent → ScanResult
  | [] => ⟨Option.none, "", []⟩
  | AgentEvent.returnControl rc :: _ => ⟨Option.some rc, "", []⟩
  | AgentEvent.chunk t :: rest =>
      let r := scanEvents rest
      ⟨r.returnControl, t ++ r.responseText, r.outputFiles⟩
  | AgentEvent.files fs :: rest =>
      let r := scanEvents rest
      ⟨r.returnControl, r.responseText, fs ++ r.outputFiles⟩
  | AgentEvent.trace :: rest => scanEvents rest

/-- Escape of `"` and `\` inside a JSON string literal. -/
def jsonEscape (s : String) : String :=
  s.data.foldl
    (fun acc c =>
      if c = '"' then acc ++ "\\\""
      else if c = '\\' then acc ++ "\\\\"
      else acc.push c)
    ""

mutual

/-- Model of `json.dumps` on the values the SDK serializes (tool results).
Rationals print in `Rat` notation rather than Python float `repr`; the loop
never inspects the serialized body, so only its existence matters here. -/
def pyJsonDumps : PyValue → String
  | PyValue.none => "null"
  | PyValue.bool b => if b then "true" else "false"
  | PyValue.int n => toString n
  | PyValue.float f => toString f.num ++ "/" ++ toString f.den
  | PyValue.str s => "\"" ++ jsonEscape s ++ "\""
  | PyValue.list xs => "[" ++ pyJsonDumpsList xs ++ "]"
  | PyValue.dict es => "\x7b" ++ pyJsonDumpsDict es ++ "\x7d"

/-- Comma-joined serialization of a JSON array body. -/
def pyJsonDumpsList : List PyValue → String
  | [] => ""
  | [x] => pyJsonDumps x
  | x :: y :: rest => pyJsonDumps x ++ ", " ++ pyJsonDumpsList (y :: rest)

/-- Comma-joined serialization of a JSON object body. -/
def pyJsonDumpsDict : List (String × PyValue) → String
  | [] => ""
  | [e] => "\"" ++ jsonEscape e.1 ++ "\": " ++ pyJsonDumps e.2
  | e :: f :: rest =>
      "\"" ++ jsonEscape e.1 ++ "\": " ++ pyJsonDumps e.2 ++ ", " ++
        pyJsonDumpsDict (f :: rest)

end

/-- Outcome of calling a registered Python tool: a returned value, a
`TypeError` from an argument-shape mismatch, or any other raised error. -/
inductive ExecOutcome where
  | ok (v : PyValue)
  | typeError (msg : String)
  | raised (msg : String)

/-- A registered tool callable, as the executor sees it: keyword arguments
in, an `ExecOutcome` out. -/
def ToolFn : Type := List (String × PyValue) → ExecOutcome

/-- `Client._execute_function` (`client.py` lines 178-198): a lookup miss,
a `TypeError` and any other raised error all yield `None`; no exception
escapes this boundary. -/
def execute_function (function_map : List (String × ToolFn))
    (function_name : String) (params : List (String × PyValue)) :
    Option PyValue :=
  match List.lookup function_name function_map with
  | Option.none => Option.none
  | Option.some f =>
      match f params with
      | ExecOutcome.ok v => Option.some v
      | ExecOutcome.typeError _ => Option.none
      | ExecOutcome.raised _ => Option.none

/-- Parameter descriptor produced by `extract_parameter_info`.  The
introspection itself (signatures, docstrings) is outside the embedding; its
output is carried as data on each function model. -/
structure ParamSpec where
  description : String
  required : Bool
  type : String
deriving DecidableEq

/-- The SDK's `Function` model: name, description, the callable, an
optional action-group name, plus the callable's extracted parameter info. -/
structure FunctionModel where
  name : String
  description : String
  handler : ToolFn
  action_group : Option String
  paramInfo : List (String × ParamSpec)

/-- The SDK's `ActionGroup` model (functions already normalized to
`Function` objects, as `ActionGroup._process_functions` guarantees). -/
structure ActionGroupSpec where
  name : String
  description : String
  functions : List FunctionModel

/-- An `InputFile` attached by the caller. -/
structure InputFile where
  name : String
  content : String
  media_type : String
  use_case : String

/-- One function entry of an emitted action-group schema
(`function_def` in `client.py`): the `parameters` key is present only when
the parameter map is non-empty. -/
structure FunctionDef where
  name : String
  description : String
  requireConfirmation : String
  parameters : Option (List (String × ParamSpec))
deriving DecidableEq

/-- One emitted action-group descriptor.  Ordinary groups carry a
description, `customControl = "RETURN_CONTROL"` and a function schema; the
code-interpreter entry carries only a `parentActionGroupSignature`. -/
structure ActionGroupDescriptor where
  actionGroupName : String
  description : Option String
  customControl : Option String
  parentActionGroupSignature : Option String
  functions : Option (List FunctionDef)
deriving DecidableEq

/-- The serialized tool result sent back on a resumption turn
(`return_control_result`, `client.py` lines 371-381). -/
structure ReturnControlResult where
  actionGroup : String
  function : String
  responseBody : String

/-- The `inlineSessionState` request field. -/
structure InlineSessionState where
  invocationId : Option String
  returnControlInvocationResults : List ReturnControlResult
  files : List InputFile

/-- The request parameter dictionary assembled by `_invoke_agent`
(lines 229-274) and passed to `invoke_inline_agent`. -/
structure RequestParams where
  sessionId : String
  actionGroups : List ActionGroupDescriptor
  instruction : String
  foundationModel : String
  enableTrace : Bool
  advancedConfig : List (String × String)
  inputText : Option String
  inlineSessionState : Option InlineSessionState

/-- The accumulated result of one run: response text plus collected
files. -/
structure InvokeResult where
  response : String
  files : List OutputFile
deriving DecidableEq

/-- A plugin's three hooks.  `Except.error` models an exception raised
inside the hook. -/
structure Plugin where
  preInvoke : RequestParams → Except String RequestParams
  postInvoke : List AgentEvent → Except String (List AgentEvent)
  postProcess : InvokeResult → Except String InvokeResult

/-- The agent configuration fields `_invoke_agent` reads. -/
structure AgentModel where
  name : String
  model : String
  instructions : String
  functions : List FunctionModel
  action_groups : List ActionGroupSpec
  enable_code_interpreter : Bool
  files : List InputFile
  plugins : List Plugin
  advancedConfig : List (String × String)

/-- The client configuration fields the loop reads, plus the remote
endpoint `invoke_inline_agent` as an opaque collaborator mapping a request
to its completion event sequence. -/
structure ClientConfig where
  max_tool_calls : Nat
  agent_traces : Bool
  remote : RequestParams → List AgentEvent

/-- `function_def` construction shared by both schema-builder branches:
the `parameters` key is added only when parameters exist. -/
def mkFunctionDef (name description : String)
    (params : List (String × ParamSpec)) : FunctionDef :=
  ⟨name, description, "DISABLED",
    if params.isEmpty then Option.none else Option.some params⟩

/-- Descriptor for one explicitly supplied action group
(`client.py` lines 63-104). -/
def explicitGroupDescriptor (ag : ActionGroupSpec) : ActionGroupDescriptor :=
  ⟨ag.name, Option.some ag.description, Option.some "RETURN_CONTROL",
    Option.none,
    Option.some (ag.functions.map (fun f => mkFunctionDef f.name f.description f.paramInfo))⟩

/-- Group name chosen for a function: Python `func.action_group or
"DefaultActions"`, where an empty string is falsy. -/
def groupKey (f : FunctionModel) : String :=
  match f.action_group with
  | Option.some s => if s = "" then "DefaultActions" else s
  | Option.none => "DefaultActions"

/-- The per-function record stored in `action_group_map`
(`client.py` lines 126-130). -/
structure FuncInfo where
  name : String
  description : String
  parameters : List (String × ParamSpec)
deriving DecidableEq

/-- The record `_build_action_groups` stores for one function. -/
def toFuncInfo (f : FunctionModel) : FuncInfo :=
  ⟨f.name, f.description, f.paramInfo⟩

/-- Python-dict grouping step `action_group_map[group_name].append(...)`
(creating the key on first use), on an insertion-ordered association
list. -/
def addToGroupMap (m : List (String × List FuncInfo)) (k : String)
    (fi : FuncInfo) : List (String × List FuncInfo) :=
  if m.any (fun p => p.1 = k) then
    m.map (fun p => if p.1 = k then (p.1, p.2 ++ [fi]) else p)
  else m ++ [(k, [fi])]

/-- The grouping loop of `_build_action_groups` (lines 112-130). -/
def buildGroupMap (funcs : List FunctionModel) :
    List (String × List FuncInfo) :=
  funcs.foldl (fun m f => addToGroupMap m (groupKey f) (toFuncInfo f)) []

/-- Descriptor emitted for one grouped-by-name entry (lines 133-158). -/
def fallbackGroupDescriptor (p : String × List FuncInfo) :
    ActionGroupDescriptor :=
  ⟨p.1, Option.some ("Actions related to " ++ (p.1.replace "Actions" "")),
    Option.some "RETURN_CONTROL", Option.none,
    Option.some (p.2.map (fun fi => mkFunctionDef fi.name fi.description fi.parameters))⟩

/-- The code-interpreter descriptor appended when enabled (lines 164-169). -/
def codeInterpreterDescriptor : ActionGroupDescriptor :=
  ⟨"CodeInterpreterAction", Option.none, Option.none,
    Option.some "AMAZON.CodeInterpreter", Option.none⟩

/-- `Client._build_action_groups` (lines 58-176): explicit groups when
supplied, otherwise functions partitioned by group name; the
code-interpreter entry is appended when enabled. -/
def build_action_groups (agent : AgentModel) : List ActionGroupDescriptor :=
  (if !agent.action_groups.isEmpty then
    agent.action_groups.map explicitGroupDescriptor
  else (buildGroupMap agent.functions).map fallbackGroupDescriptor)
  ++ (if agent.enable_code_interpreter then [codeInterpreterDescriptor] else [])

/-- The request assembled by `_invoke_agent` (lines 229-274).  On the
initial call `inlineSessionState` is present only when input files are
attached; on a resumption call it always carries the invocation id and the
tool-result list (an absent `files` key is modelled as the empty list). -/
def buildParams (client : ClientConfig) (agent : AgentModel)
    (action_groups : List ActionGroupDescriptor) (session_id : String)
    (input_text : Option String) (invocation_id : Option String)
    (rc_result : Option ReturnControlResult) : RequestParams :=
  match input_text with
  | Option.some t =>
      ⟨session_id, action_groups, agent.instructions, agent.model,
        client.agent_traces, agent.advancedConfig, Option.some t,
        if agent.files.isEmpty then Option.none
        else Option.some ⟨Option.none, [], agent.files⟩⟩
  | Option.none =>
      ⟨session_id, action_groups, agent.instructions, agent.model,
        client.agent_traces, agent.advancedConfig, Option.none,
        Option.some ⟨invocation_id, rc_result.toList, agent.files⟩⟩

/-- `params = plugin.pre_invoke(params)` over the plugin list in order;
an error is a raised exception. -/
def applyPreInvoke : List Plugin → RequestParams → Except String RequestParams
  | [], p => Except.ok p
  | pl :: rest, p =>
      match pl.preInvoke p with
      | Except.error e => Except.error e
      | Except.ok p2 => applyPreInvoke rest p2

/-- `response = plugin.post_invoke(response)` over the plugin list in
order. -/
def applyPostInvoke : List Plugin → List AgentEvent → Except String (List AgentEvent)
  | [], evs => Except.ok evs
  | pl :: rest, evs =>
      match pl.postInvoke evs with
      | Except.error e => Except.error e
      | Except.ok evs2 => applyPostInvoke rest evs2

/-- `result = plugin.post_process(result)` over the plugin list in order. -/
def applyPostProcess : List Plugin → InvokeResult → Except String InvokeResult
  | [], r => Except.ok r
  | pl :: rest, r =>
      match pl.postProcess r with
      | Except.error e => Except.error e
      | Except.ok r2 => applyPostProcess rest r2

/-- The generic `except` handler of `_invoke_agent` (lines 409-416). -/
def errorResult (msg : String) : InvokeResult :=
  ⟨"An error occurred: " ++ msg, []⟩

/-- Outcome of the body of one turn: either a final result (with the number
of remote calls that turn made, 0 or 1), or a request to recurse with a
tool result. -/
inductive TurnOut where
  | finished (r : InvokeResult) (remoteCalls : Nat)
  | callTool (invocationId : String) (rcResult : ReturnControlResult)
      (accumulated : String) (files : List OutputFile)

/-- The terminal-result assembly shared by the no-tool-call return
(lines 322-332) and the missing-tool-result return (lines 353-365): apply
the post-process hooks; a hook exception falls to the generic handler. -/
def finishTurn (plugins : List Plugin) (acc : String)
    (fs : List OutputFile) : TurnOut :=
  match applyPostProcess plugins ⟨acc, fs⟩ with
  | Except.ok r => TurnOut.finished r 1
  | Except.error e => TurnOut.finished (errorResult e) 1

/-- The body of one turn of `_invoke_agent` (lines 227-381): build the
request, run pre-invoke hooks, call the remote endpoint once, run
post-invoke hooks, scan the events, accumulate text, and either finish or
execute the requested tool and ask to recurse.  Exceptions raised anywhere
in this span (hooks, the empty `invocationInputs` index error) are caught
by the generic handler and become `errorResult`. -/
def invokeTurn (client : ClientConfig) (agent : AgentModel)
    (action_groups : List ActionGroupDescriptor)
    (function_map : List (String × ToolFn)) (session_id : String)
    (input_text : Option String) (invocation_id : Option String)
    (rc_result : Option ReturnControlResult)
    (accumulated_text : String) : TurnOut :=
  let params := buildParams client agent action_groups session_id input_text
    invocation_id rc_result
  match applyPreInvoke agent.plugins params with
  | Except.error e => TurnOut.finished (errorResult e) 0
  | Except.ok params2 =>
      match applyPostInvoke agent.plugins (client.remote params2) with
      | Except.error e => TurnOut.finished (errorResult e) 1
      | Except.ok events =>
          let scan := scanEvents events
          let acc2 := joinText accumulated_text scan.responseText
          match scan.returnControl with
          | Option.none => finishTurn agent.plugins acc2 scan.outputFiles
          | Option.some rc =>
              match rc.invocationInputs.head? with
              | Option.none =>
                  TurnOut.finished (errorResult "list index out of range") 1
              | Option.some inp =>
                  match execute_function function_map inp.function
                    (convert_parameters inp.parameters) with
                  | Option.none => finishTurn agent.plugins acc2 scan.outputFiles
                  | Option.some v =>
                      if pyTruthy v then
                        TurnOut.callTool rc.invocationId
                          ⟨inp.actionGroup, inp.function, pyJsonDumps v⟩
                          acc2 scan.outputFiles
                      else finishTurn agent.plugins acc2 scan.outputFiles

/-- The loop result together with the number of remote calls it made (the
call count is instrumentation for the statements below; the Python method
returns only the result dictionary). -/
structure InvokeOut where
  result : InvokeResult
  remoteCalls : Nat
deriving DecidableEq

/-- The fixed suffix appended when the tool-call ceiling trips
(`client.py` line 220). -/
def ceilingNotice : String :=
  "\n\nReached maximum number of tool calls. Some tasks may be incomplete."

/-- The recursion of `_invoke_agent`, indexed by the remaining budget
`max_tool_calls - tool_call_count`.  The source increments
`tool_call_count` on entry and returns the ceiling notice when the new
count exceeds `max_tool_calls`; that test is exactly `remaining = 0` for
the budget, which decreases by one on each recursive call (lines 217-222
and 384-394).  On the recursive path the files of this turn are merged
with the recursive result's files and the post-process hooks run once more
(lines 396-407), a hook exception again falling to the generic handler. -/
def invoke_agent_from (client : ClientConfig) (agent : AgentModel)
    (action_groups : List ActionGroupDescriptor)
    (function_map : List (String × ToolFn)) (session_id : String) :
    Nat → Option String → Option String → Option ReturnControlResult →
    String → InvokeOut
  | 0, _, _, _, acc => ⟨⟨acc ++ ceilingNotice, []⟩, 0⟩
  | Nat.succ rem, input_text, invocation_id, rc_result, acc =>
      match invokeTurn client agent action_groups function_map session_id
        input_text invocation_id rc_result acc with
      | TurnOut.finished r n => ⟨r, n⟩
      | TurnOut.callTool iid rcr acc2 fs =>
          let rec_out := invoke_agent_from client agent action_groups
            function_map session_id rem Option.none (Option.some iid)
            (Option.some rcr) acc2
          match applyPostProcess agent.plugins
            ⟨rec_out.result.response, fs ++ rec_out.result.files⟩ with
          | Except.ok r => ⟨r, 1 + rec_out.remoteCalls⟩
          | Except.error e => ⟨errorResult e, 1 + rec_out.remoteCalls⟩

/-- `Client._invoke_agent` with the counter-based signature of the source:
the remaining budget is `max_tool_calls - tool_call_count`. -/
def invoke_agent (client : ClientConfig) (agent : AgentModel)
    (action_groups : List ActionGroupDescriptor)
    (function_map : List (String × ToolFn)) (session_id : String)
    (input_text : Option String) (invocation_id : Option String)
    (rc_result : Option ReturnControlResult) (accumulated_text : String)
    (tool_call_count : Nat) : InvokeOut :=
  invoke_agent_from client agent action_groups function_map session_id
    (client.max_tool_calls - tool_call_count) input_text invocation_id
    rc_result accumulated_text

/-- A conversation message. -/
structure Message where
  role : String
  content : String
deriving DecidableEq

/-- The exceptions `Client.run` can raise before invoking the agent. -/
inductive RunError where
  | valueError (msg : String)
  | indexError (msg : String)
deriving DecidableEq

/-- The input validation and last-message extraction of `Client.run`
(lines 431-460): the both/neither checks, then — for the list form — the
`messages[-1]` access (an index error on an empty list) and the last-role
check.  The intervening schema build and function-map construction are
pure and make no remote call, so they commute past this validation. -/
def validateMessages (message : Option String)
    (messages : Option (List Message)) : Except RunError Message :=
  if message.isNone && messages.isNone then
    Except.error (RunError.valueError "Either 'message' or 'messages' must be provided")
  else if message.isSome && messages.isSome then
    Except.error (RunError.valueError "Only one of 'message' or 'messages' should be provided, not both")
  else
    match message, messages with
    | Option.some m, _ => Except.ok ⟨"user", m⟩
    | Option.none, Option.some ms =>
        match ms.getLast? with
        | Option.none => Except.error (RunError.indexError "list index out of range")
        | Option.some last =>
            if last.role ≠ "user" then
              Except.error (RunError.valueError "The last message must be from the user")
            else Except.ok last
    | Option.none, Option.none =>
        Except.error (RunError.valueError "Either 'message' or 'messages' must be provided")

/-- `function_map = {func.name: func.function for func in agent.functions}`
(line 448). -/
def function_map_of (agent : AgentModel) : List (String × ToolFn) :=
  agent.functions.map (fun f => (f.name, f.handler))

/-- `Client.run` (lines 418-491): validate, then invoke the agent with the
last user message and `tool_call_count = 0`.  An `Except.error` is an
exception surfaced to the caller; in that case the remote endpoint is
never applied. -/
def run (client : ClientConfig) (agent : AgentModel)
    (message : Option String) (messages : Option (List Message))
    (session_id : String) : Except RunError InvokeOut :=
  match validateMessages message messages with
  | Except.error e => Except.error e
  | Except.ok last =>
      Except.ok (invoke_agent client agent (build_action_groups agent)
        (function_map_of agent) session_id (Option.some last.content)
        Option.none Option.none "" 0)

/-! ## Concrete fixtures: a remote stub that always requests a tool call,
and a minimal agent with one registered tool -/

/-- A registered tool that always succeeds with a non-empty (truthy)
result. -/
def stubTool : ToolFn := fun _ => ExecOutcome.ok (PyValue.str "ok")

/-- A tool-call request for the stub tool. -/
def stubReturnControl : ReturnControlPayload :=
  ⟨"inv-1", [⟨"stub_tool", "DefaultActions", []⟩]⟩

/-- A client whose remote endpoint always answers with a tool-call
request. -/
def stubClient (n : Nat) : ClientConfig :=
  ⟨n, false, fun _ => [AgentEvent.returnControl stubReturnControl]⟩

/-- A minimal agent registering exactly the stub tool, with no plugins,
files, pre-built groups or code interpreter. -/
def stubAgent : AgentModel :=
  ⟨"agent", "model-id", "instructions",
    [⟨"stub_tool", "a stub tool", stubTool, Option.none, []⟩],
    [], false, [], [], []⟩

/-- The schema built for the stub agent. -/
def stubActionGroups : List ActionGroupDescriptor :=
  build_action_groups stubAgent

/-- The function map built for the stub agent. -/
def stubFunctionMap : List (String × ToolFn) :=
  function_map_of stubAgent

/-! ## Helper predicates for the claims -/

/-- Whether an event is a tool-call request (`returnControl`). -/
def isToolCallRequest : AgentEvent → Bool
  | AgentEvent.returnControl _ => true
  | _ => false

/-- The text of a chunk event, if any. -/
def chunkText : AgentEvent → Option String
  | AgentEvent.chunk t => Option.some t
  | _ => Option.none

/-- The file records of a files event, if any. -/
def fileBatch : AgentEvent → Option (List OutputFile)
  | AgentEvent.files fs => Option.some fs
  | _ => Option.none

/-- Both message forms supplied to `run`. -/
def bothSupplied (m : Option String) (ms : Option (List Message)) : Bool :=
  m.isSome && ms.isSome

/-- Neither message form supplied to `run`. -/
def neitherSupplied (m : Option String) (ms : Option (List Message)) : Bool :=
  m.isNone && ms.isNone

/-- A supplied message list whose last entry exists and is not from the
user. -/
def lastMessageNotUser (ms : Option (List Message)) : Bool :=
  match ms with
  | Option.some l =>
      match l.getLast? with
      | Option.some last => last.role != "user"
      | Option.none => false
  | Option.none => false

/-- A supplied but empty message list. -/
def messagesEmpty (ms : Option (List Message)) : Bool :=
  match ms with
  | Option.some [] => true
  | _ => false

/-! ## Theorems for the claims -/

/-- **C8.** Text accumulation across turns: the accumulator is unchanged on
an empty chunk, equals the chunk when the accumulator is empty, and is
newline-joined when both sides are non-empty. -/
theorem C8_text_accumulation :
    (∀ acc, joinText acc "" = acc) ∧
    (∀ c, joinText "" c = c) ∧
    (∀ acc c, acc ≠ "" → c ≠ "" → joinText acc c = acc ++ "\n" ++ c) := by
  refine ⟨fun acc => by simp [joinText], fun c => ?_, fun acc c h1 h2 => by simp [joinText, h1, h2]⟩
  by_cases hc : c = "" <;> simp [joinText, hc]

/-- Witness for C8 at concrete strings. -/
theorem C8_text_accumulation_witness :
    joinText "a" "" = "a" ∧ joinText "" "b" = "b" ∧
    joinText "a" "b" = "a" ++ "\n" ++ "b" :=
  ⟨C8_text_accumulation.1 "a", C8_text_accumulation.2.1 "b",
    C8_text_accumulation.2.2 "a" "b" (by decide) (by decide)⟩

/-- **C4.** Boolean parameter conversion: a case-insensitive member of
`true/yes/1` converts to `true`, of `false/no/0` to `false`, and any other
value passes through as the original string; in particular
`convert([("a","true","boolean")]) = [("a", true)]`. -/
theorem C4_boolean_conversion :
    (∀ nm v, ["true", "yes", "1"].contains (pyLower v) = true →
      convert_parameters [⟨nm, v, "boolean"⟩] = [(nm, PyValue.bool true)]) ∧
    (∀ nm v, ["true", "yes", "1"].contains (pyLower v) = false →
      ["false", "no", "0"].contains (pyLower v) = true →
      convert_parameters [⟨nm, v, "boolean"⟩] = [(nm, PyValue.bool false)]) ∧
    (∀ nm v, ["true", "yes", "1"].contains (pyLower v) = false →
      ["false", "no", "0"].contains (pyLower v) = false →
      convert_parameters [⟨nm, v, "boolean"⟩] = [(nm, PyValue.str v)]) ∧
    convert_parameters [⟨"a", "true", "boolean"⟩] = [("a", PyValue.bool true)] := by
  refine ⟨fun nm v h => ?_, fun nm v h1 h2 => ?_, fun nm v h1 h2 => ?_, by rfl⟩
  · have h' : pyLower v = "true" ∨ pyLower v = "yes" ∨ pyLower v = "1" := by
      simpa using h
    simp [convert_parameters, convertOne, dictInsert, h']
  · have h1' : ¬(pyLower v = "true" ∨ pyLower v = "yes" ∨ pyLower v = "1") := by
      simpa using h1
    have h2' : pyLower v = "false" ∨ pyLower v = "no" ∨ pyLower v = "0" := by
      simpa using h2
    simp [convert_parameters, convertOne, dictInsert, h1', h2']
  · have h1' : ¬(pyLower v = "true" ∨ pyLower v = "yes" ∨ pyLower v = "1") := by
      simpa using h1
    have h2' : ¬(pyLower v = "false" ∨ pyLower v = "no" ∨ pyLower v = "0") := by
      simpa using h2
    simp [convert_parameters, convertOne, dictInsert, h1', h2']

/-- Witness for C4 at concrete inputs. -/
theorem C4_boolean_conversion_witness :
    convert_parameters [⟨"a", "YES", "boolean"⟩] = [("a", PyValue.bool true)] ∧
    convert_parameters [⟨"b", "No", "boolean"⟩] = [("b", PyValue.bool false)] ∧
    convert_parameters [⟨"c", "Maybe", "boolean"⟩] = [("c", PyValue.str "Maybe")] :=
  ⟨C4_boolean_conversion.1 "a" "YES" (by rfl),
    C4_boolean_conversion.2.1 "b" "No" (by rfl) (by rfl),
    C4_boolean_conversion.2.2.1 "c" "Maybe" (by rfl) (by rfl)⟩

/-- **C5.** Number parameter conversion: a parsed value with no fractional
part is narrowed to an integer, one with a fractional part stays a float,
and a parse failure drops the entry silently without affecting the other
entries; in particular `convert([("n","not_a_number","number")]) = []`. -/
theorem C5_number_conversion :
    (∀ nm v f, parseFloat v = Option.some f → f.num % (f.den : Int) = 0 →
      convert_parameters [⟨nm, v, "number"⟩] = [(nm, PyValue.int (f.num / (f.den : Int)))]) ∧
    (∀ nm v f, parseFloat v = Option.some f → f.num % (f.den : Int) ≠ 0 →
      convert_parameters [⟨nm, v, "number"⟩] = [(nm, PyValue.float f)]) ∧
    (∀ nm v rest, parseFloat v = Option.none →
      convert_parameters (⟨nm, v, "number"⟩ :: rest) = convert_parameters rest) ∧
    convert_parameters [⟨"n", "not_a_number", "number"⟩] = [] := by
  refine ⟨fun nm v f h1 h2 => ?_, fun nm v f h1 h2 => ?_, fun nm v rest h => ?_, by rfl⟩
  · simp [convert_parameters, convertOne, dictInsert, h1, h2]
    exact Int.dvd_of_emod_eq_zero h2
  · simp [convert_parameters, convertOne, dictInsert, h1, h2]
    exact fun hd => h2 (Int.emod_eq_zero_of_dvd hd)
  · simp [convert_parameters, convertOne, h]

/-- Witness for C5 at concrete inputs. -/
theorem C5_number_conversion_witness :
    convert_parameters [⟨"n", "42", "number"⟩] = [("n", PyValue.int 42)] ∧
    convert_parameters [⟨"m", "4.25", "number"⟩] = [("m", PyValue.float ⟨425, 100⟩)] ∧
    convert_parameters [⟨"x", "oops", "number"⟩, ⟨"a", "true", "boolean"⟩] =
      convert_parameters [⟨"a", "true", "boolean"⟩] :=
  ⟨C5_number_conversion.1 "n" "42" ⟨42, 1⟩ (by rfl) (by decide),
    C5_number_conversion.2.1 "m" "4.25" ⟨425, 100⟩ (by rfl) (by decide),
    C5_number_conversion.2.2.1 "x" "oops" [⟨"a", "true", "boolean"⟩] (by rfl)⟩

/-- **C2.** Event scanning: without a tool-call request the scan
accumulates all chunks and file records in order; with one, scanning stops
at the first tool-call request and keeps exactly the text and files that
appeared before it, ignoring everything after. -/
theorem C2_event_scanning :
    (∀ evs, evs.all (fun e => !(isToolCallRequest e)) = true →
      scanEvents evs =
        ⟨Option.none, (evs.filterMap chunkText).foldr (fun a b => a ++ b) "",
          (evs.filterMap fileBatch).foldr (fun a b => a ++ b) []⟩) ∧
    (∀ pre rc post, pre.all (fun e => !(isToolCallRequest e)) = true →
      scanEvents (pre ++ AgentEvent.returnControl rc :: post) =
        ⟨Option.some rc, (pre.filterMap chunkText).foldr (fun a b => a ++ b) "",
          (pre.filterMap fileBatch).foldr (fun a b => a ++ b) []⟩) := by
  constructor
  · intro evs h
    induction evs with
    | nil => rfl
    | cons e rest ih =>
        simp only [List.all_cons, Bool.and_eq_true] at h
        cases e with
        | returnControl rc => simp [isToolCallRequest] at h
        | chunk t =>
            simp [scanEvents, ih h.2, chunkText, fileBatch]
        | files fs =>
            simp [scanEvents, ih h.2, chunkText, fileBatch]
        | trace =>
            simp [scanEvents, ih h.2, chunkText, fileBatch]
  · intro pre rc post h
    induction pre with
    | nil => rfl
    | cons e rest ih =>
        simp only [List.all_cons, Bool.and_eq_true] at h
        cases e with
        | returnControl rc2 => simp [isToolCallRequest] at h
        | chunk t =>
            simp [scanEvents, List.cons_append, ih h.2, chunkText, fileBatch]
        | files fs =>
            simp [scanEvents, List.cons_append, ih h.2, chunkText, fileBatch]
        | trace =>
            simp [scanEvents, List.cons_append, ih h.2, chunkText, fileBatch]

/-- Witness for C2 at a concrete event sequence. -/
theorem C2_event_scanning_witness :
    scanEvents [AgentEvent.chunk "a", AgentEvent.files [⟨"f", "data", "text/plain"⟩],
        AgentEvent.trace, AgentEvent.returnControl ⟨"inv", []⟩, AgentEvent.chunk "z"] =
      ⟨Option.some ⟨"inv", []⟩, "a", [⟨"f", "data", "text/plain"⟩]⟩ :=
  C2_event_scanning.2
    [AgentEvent.chunk "a", AgentEvent.files [⟨"f", "data", "text/plain"⟩], AgentEvent.trace]
    ⟨"inv", []⟩ [AgentEvent.chunk "z"] (by rfl)

/-- **C6, counterexample.** Supplying `messages` as an empty list raises an
index error from `messages[-1]` even though both-supplied, neither-supplied
and last-role-not-user all fail to hold, so the three listed validation
errors are not the only exceptions surfaced to the caller. -/
theorem C6_counterexample :
    run (stubClient 1) stubAgent Option.none (Option.some []) "session" =
      Except.error (RunError.indexError "list index out of range") ∧
    bothSupplied Option.none (Option.some []) = false ∧
    neitherSupplied Option.none (Option.some []) = false ∧
    lastMessageNotUser (Option.some []) = false :=
  ⟨rfl, rfl, rfl, rfl⟩

/-- **C6, amended.** `run` raises exactly when neither message form is
supplied, both are supplied, the supplied list's last entry is not from
the user, or the supplied list is empty (an index error); every such error
is the validation error itself, raised before the remote endpoint is ever
applied. -/
theorem C6_validation_amended :
    ∀ (client : ClientConfig) (agent : AgentModel) (m : Option String)
      (ms : Option (List Message)) (sid : String),
      ((∃ e, run client agent m ms sid = Except.error e) ↔
        (neitherSupplied m ms = true ∨ bothSupplied m ms = true ∨
          lastMessageNotUser ms = true ∨ (m.isNone && messagesEmpty ms) = true)) ∧
      (∀ e, run client agent m ms sid = Except.error e ↔
        validateMessages m ms = Except.error e) := by
  intro client agent m ms sid
  constructor
  · cases m with
    | some x =>
        cases ms with
        | some l =>
            simp [run, validateMessages, neitherSupplied, bothSupplied,
              lastMessageNotUser, messagesEmpty]
        | none =>
            simp [run, validateMessages, neitherSupplied, bothSupplied,
              lastMessageNotUser, messagesEmpty]
    | none =>
        cases ms with
        | none =>
            simp [run, validateMessages, neitherSupplied, bothSupplied,
              lastMessageNotUser, messagesEmpty]
        | some l =>
            cases l with
            | nil =>
                simp [run, validateMessages, neitherSupplied, bothSupplied,
                  lastMessageNotUser, messagesEmpty]
            | cons a as =>
                rcases hL : (a :: as).getLast? with _ | last
                · simp at hL
                · by_cases hr : last.role = "user" <;>
                    simp [run, validateMessages, hL, neitherSupplied,
                      bothSupplied, lastMessageNotUser, messagesEmpty, hr]
  · intro e
    rcases hv : validateMessages m ms with e2 | last <;> simp [run, hv]

/-- One turn makes at most one remote call when it finishes. -/
theorem invokeTurn_finished_calls_le
    {client : ClientConfig} {agent : AgentModel}
    {ags : List ActionGroupDescriptor} {fm : List (String × ToolFn)}
    {sid : String} {it iid : Option String} {rcr : Option ReturnControlResult}
    {acc : String} {r : InvokeResult} {n : Nat}
    (h : invokeTurn client agent ags fm sid it iid rcr acc = TurnOut.finished r n) :
    n ≤ 1 := by
  simp only [invokeTurn, finishTurn] at h
  iterate 8 (all_goals try split at h)
  all_goals
    first
    | (injection h with h1 h2; omega)
    | exact TurnOut.noConfusion h

/-- The loop makes at most `remaining` remote calls. -/
theorem invoke_agent_from_calls_le (client : ClientConfig) (agent : AgentModel)
    (ags : List ActionGroupDescriptor) (fm : List (String × ToolFn))
    (sid : String) :
    ∀ (rem : Nat) (it iid : Option String) (rcr : Option ReturnControlResult)
      (acc : String),
      (invoke_agent_from client agent ags fm sid rem it iid rcr acc).remoteCalls ≤ rem := by
  intro rem
  induction rem with
  | zero => intro it iid rcr acc; simp [invoke_agent_from]
  | succ r ih =>
      intro it iid rcr acc
      simp only [invoke_agent_from]
      generalize ht : invokeTurn client agent ags fm sid it iid rcr acc = t
      cases t with
      | finished r0 n =>
          exact Nat.le_trans (invokeTurn_finished_calls_le ht) (by omega)
      | callTool iid2 rcr2 acc2 fs =>
          split
          next r0 n heq => exact TurnOut.noConfusion heq
          next iid3 rcr3 acc3 fs3 heq =>
            injection heq with e1 e2 e3 e4
            subst e1; subst e2; subst e3; subst e4
            have key : ∀ a b : Nat, a ≤ b → 1 + a ≤ b + 1 := by omega
            split <;> simp <;> exact key _ _ (ih _ _ _ _)

/-- Against the always-tool-call stub, every budget is consumed exactly:
the loop makes `rem` further remote calls and ends with the ceiling notice
appended to the accumulated text, collecting no files. -/
theorem stub_loop_exact (N : Nat) :
    ∀ (rem : Nat) (it iid : Option String) (rcr : Option ReturnControlResult)
      (acc : String),
      invoke_agent_from (stubClient N) stubAgent stubActionGroups stubFunctionMap
          "session" rem it iid rcr acc =
        ⟨⟨acc ++ ceilingNotice, []⟩, rem⟩ := by
  intro rem
  induction rem with
  | zero => intro it iid rcr acc; rfl
  | succ r ih =>
      intro it iid rcr acc
      have ht : invokeTurn (stubClient N) stubAgent stubActionGroups
          stubFunctionMap "session" it iid rcr acc =
          TurnOut.callTool "inv-1"
            ⟨"DefaultActions", "stub_tool", pyJsonDumps (PyValue.str "ok")⟩
            acc [] := rfl
      simp only [invoke_agent_from, ht]
      rw [ih]
      simp [applyPostProcess, stubAgent, Nat.add_comm]

/-- **C1.** The loop makes at most `max_tool_calls` remote calls per user
message, and against a remote stub that always returns a tool-call request
with ceiling `N` it makes exactly `N` remote calls, returning the fixed
ceiling notice appended to the (empty) accumulated text with no files. -/
theorem C1_tool_call_ceiling :
    (∀ (client : ClientConfig) (agent : AgentModel)
      (ags : List ActionGroupDescriptor) (fm : List (String × ToolFn))
      (sid : String) (it iid : Option String)
      (rcr : Option ReturnControlResult) (acc : String),
      (invoke_agent client agent ags fm sid it iid rcr acc 0).remoteCalls ≤
        client.max_tool_calls) ∧
    (∀ N : Nat,
      invoke_agent (stubClient N) stubAgent stubActionGroups stubFunctionMap
          "session" (Option.some "query") Option.none Option.none "" 0 =
        ⟨⟨"" ++ ceilingNotice, []⟩, N⟩) := by
  constructor
  · intro client agent ags fm sid it iid rcr acc
    have := invoke_agent_from_calls_le client agent ags fm sid
      (client.max_tool_calls - 0) it iid rcr acc
    simpa [invoke_agent] using this
  · intro N
    have := stub_loop_exact N N (Option.some "query") Option.none Option.none ""
    simpa [invoke_agent] using this

/-- When the turn body finishes, the loop returns its result and call
count unchanged. -/
theorem invoke_agent_from_succ_finished
    {client : ClientConfig} {agent : AgentModel}
    {ags : List ActionGroupDescriptor} {fm : List (String × ToolFn)}
    {sid : String} {it iid : Option String} {rcr : Option ReturnControlResult}
    {acc : String} {rem : Nat} {r : InvokeResult} {n : Nat}
    (h : invokeTurn client agent ags fm sid it iid rcr acc = TurnOut.finished r n) :
    invoke_agent_from client agent ags fm sid (rem + 1) it iid rcr acc = ⟨r, n⟩ := by
  simp only [invoke_agent_from, h]

/-- With no plugins, a turn whose scan yields a tool-call request whose
executor produces no result finishes with the accumulated text and the
scanned files after its single remote call. -/
theorem invokeTurn_executor_none
    {client : ClientConfig} {agent : AgentModel}
    {ags : List ActionGroupDescriptor} {fm : List (String × ToolFn)}
    {sid : String} {it iid : Option String} {rcr : Option ReturnControlResult}
    {acc txt : String} {rc : ReturnControlPayload}
    {inp : FunctionInvocationInput} {rest : List FunctionInvocationInput}
    {fs : List OutputFile}
    (hplug : agent.plugins = [])
    (hscan : scanEvents (client.remote (buildParams client agent ags sid it iid rcr)) =
      ⟨Option.some rc, txt, fs⟩)
    (hinp : rc.invocationInputs = inp :: rest)
    (hexec : execute_function fm inp.function (convert_parameters inp.parameters) =
      Option.none) :
    invokeTurn client agent ags fm sid it iid rcr acc =
      TurnOut.finished ⟨joinText acc txt, fs⟩ 1 := by
  simp only [invokeTurn, hplug, applyPreInvoke, applyPostInvoke, hscan, hinp,
    hexec, List.head?, finishTurn, applyPostProcess]

/-- With no plugins, a turn whose requested tool returns a falsy value
finishes exactly like the executor-failure case. -/
theorem invokeTurn_executor_falsy
    {client : ClientConfig} {agent : AgentModel}
    {ags : List ActionGroupDescriptor} {fm : List (String × ToolFn)}
    {sid : String} {it iid : Option String} {rcr : Option ReturnControlResult}
    {acc txt : String} {rc : ReturnControlPayload}
    {inp : FunctionInvocationInput} {rest : List FunctionInvocationInput}
    {fs : List OutputFile} {v : PyValue}
    (hplug : agent.plugins = [])
    (hscan : scanEvents (client.remote (buildParams client agent ags sid it iid rcr)) =
      ⟨Option.some rc, txt, fs⟩)
    (hinp : rc.invocationInputs = inp :: rest)
    (hexec : execute_function fm inp.function (convert_parameters inp.parameters) =
      Option.some v)
    (hfalsy : pyTruthy v = false) :
    invokeTurn client agent ags fm sid it iid rcr acc =
      TurnOut.finished ⟨joinText acc txt, fs⟩ 1 := by
  simp only [invokeTurn, hplug, applyPreInvoke, applyPostInvoke, hscan, hinp,
    hexec, hfalsy, List.head?, finishTurn, applyPostProcess]
  rfl

/-- A raised pre-invoke hook aborts the turn before its remote call with
the generic error result. -/
theorem invokeTurn_pre_hook_error
    {client : ClientConfig} {agent : AgentModel}
    {ags : List ActionGroupDescriptor} {fm : List (String × ToolFn)}
    {sid : String} {it iid : Option String} {rcr : Option ReturnControlResult}
    {acc msg : String}
    (hpre : applyPreInvoke agent.plugins
        (buildParams client agent ags sid it iid rcr) = Except.error msg) :
    invokeTurn client agent ags fm sid it iid rcr acc =
      TurnOut.finished (errorResult msg) 0 := by
  simp only [invokeTurn, hpre]

/-- A raised post-invoke hook aborts the turn after its remote call with
the generic error result. -/
theorem invokeTurn_post_hook_error
    {client : ClientConfig} {agent : AgentModel}
    {ags : List ActionGroupDescriptor} {fm : List (String × ToolFn)}
    {sid : String} {it iid : Option String} {rcr : Option ReturnControlResult}
    {acc msg : String} {p2 : RequestParams}
    (hpre : applyPreInvoke agent.plugins
        (buildParams client agent ags sid it iid rcr) = Except.ok p2)
    (hpost : applyPostInvoke agent.plugins (client.remote p2) = Except.error msg) :
    invokeTurn client agent ags fm sid it iid rcr acc =
      TurnOut.finished (errorResult msg) 1 := by
  simp only [invokeTurn, hpre, hpost]

/-! Fixtures for the error-path claims. -/

/-- A client whose remote endpoint emits a text chunk and then requests an
unregistered tool. -/
def missingToolClient : ClientConfig :=
  ⟨10, false, fun _ =>
    [AgentEvent.chunk "pre",
      AgentEvent.returnControl ⟨"inv-2", [⟨"missing_tool", "G", []⟩]⟩]⟩

/-- A registered tool that raises a `TypeError`. -/
def typeErrorTool : ToolFn :=
  fun _ => ExecOutcome.typeError "unexpected keyword argument"

/-- A registered tool that raises a generic runtime error. -/
def raisingTool : ToolFn := fun _ => ExecOutcome.raised "boom"

/-- **C3.** The executor yields `None` on a lookup miss, a `TypeError` and
any other raised error, with no exception escaping (the executor is a
total function into `Option`); and when the turn's requested tool yields
no result, the loop stops after that single remote call and returns the
text accumulated so far together with the turn's files. -/
theorem C3_executor_failure_soft :
    (∀ (fm : List (String × ToolFn)) (nm : String) (ps : List (String × PyValue)),
      List.lookup nm fm = Option.none → execute_function fm nm ps = Option.none) ∧
    (∀ (fm : List (String × ToolFn)) (f : ToolFn) (nm : String)
      (ps : List (String × PyValue)) (msg : String),
      List.lookup nm fm = Option.some f → f ps = ExecOutcome.typeError msg →
      execute_function fm nm ps = Option.none) ∧
    (∀ (fm : List (String × ToolFn)) (f : ToolFn) (nm : String)
      (ps : List (String × PyValue)) (msg : String),
      List.lookup nm fm = Option.some f → f ps = ExecOutcome.raised msg →
      execute_function fm nm ps = Option.none) ∧
    (∀ (client : ClientConfig) (agent : AgentModel)
      (ags : List ActionGroupDescriptor) (fm : List (String × ToolFn))
      (sid : String) (rem : Nat) (it iid : Option String)
      (rcr : Option ReturnControlResult) (acc txt : String)
      (rc : ReturnControlPayload) (inp : FunctionInvocationInput)
      (rest : List FunctionInvocationInput) (fs : List OutputFile),
      agent.plugins = [] →
      scanEvents (client.remote (buildParams client agent ags sid it iid rcr)) =
        ⟨Option.some rc, txt, fs⟩ →
      rc.invocationInputs = inp :: rest →
      execute_function fm inp.function (convert_parameters inp.parameters) =
        Option.none →
      invoke_agent_from client agent ags fm sid (rem + 1) it iid rcr acc =
        ⟨⟨joinText acc txt, fs⟩, 1⟩) := by
  refine ⟨fun fm nm ps h => ?_, fun fm f nm ps msg h1 h2 => ?_,
    fun fm f nm ps msg h1 h2 => ?_,
    fun client agent ags fm sid rem it iid rcr acc txt rc inp rest fs
      hplug hscan hinp hexec => ?_⟩
  · simp [execute_function, h]
  · simp [execute_function, h1, h2]
  · simp [execute_function, h1, h2]
  · exact invoke_agent_from_succ_finished
      (invokeTurn_executor_none hplug hscan hinp hexec)

/-- Witness for C3: an unregistered lookup, a `TypeError` tool, a raising
tool, and a full turn against a remote stub requesting an unregistered
tool, which stops after one remote call with the accumulated text. -/
theorem C3_executor_failure_soft_witness :
    execute_function [] "missing_tool" [] = Option.none ∧
    execute_function [("t", typeErrorTool)] "t" [] = Option.none ∧
    execute_function [("t", raisingTool)] "t" [] = Option.none ∧
    invoke_agent_from missingToolClient stubAgent stubActionGroups
        stubFunctionMap "session" 10 (Option.some "q") Option.none Option.none "" =
      ⟨⟨joinText "" "pre", []⟩, 1⟩ :=
  ⟨C3_executor_failure_soft.1 [] "missing_tool" [] rfl,
    C3_executor_failure_soft.2.1 [("t", typeErrorTool)] typeErrorTool "t" []
      "unexpected keyword argument" rfl rfl,
    C3_executor_failure_soft.2.2.1 [("t", raisingTool)] raisingTool "t" []
      "boom" rfl rfl,
    C3_executor_failure_soft.2.2.2 missingToolClient stubAgent stubActionGroups
      stubFunctionMap "session" 9 (Option.some "q") Option.none Option.none ""
      "pre" ⟨"inv-2", [⟨"missing_tool", "G", []⟩]⟩ ⟨"missing_tool", "G", []⟩
      [] [] rfl rfl rfl rfl⟩

/-! Fixtures for the falsy-result claim. -/

/-- A registered tool that succeeds but returns an empty dictionary. -/
def falsyTool : ToolFn := fun _ => ExecOutcome.ok (PyValue.dict [])

/-- A client whose remote endpoint emits a chunk and then requests the
falsy tool. -/
def falsyToolClient : ClientConfig :=
  ⟨10, false, fun _ =>
    [AgentEvent.chunk "txt",
      AgentEvent.returnControl ⟨"inv-3", [⟨"falsy_tool", "G", []⟩]⟩]⟩

/-- **C10.** `None`, `False`, `0`, `""`, `{}` and `[]` are all falsy, and a
registered tool that executes without raising but returns a falsy value is
treated exactly like a failure: the loop stops after the turn's single
remote call and returns the accumulated text, never serializing the result
back to the remote endpoint. -/
theorem C10_falsy_result_treated_as_failure :
    (pyTruthy PyValue.none = false ∧ pyTruthy (PyValue.bool false) = false ∧
      pyTruthy (PyValue.int 0) = false ∧ pyTruthy (PyValue.str "") = false ∧
      pyTruthy (PyValue.dict []) = false ∧ pyTruthy (PyValue.list []) = false ∧
      pyTruthy (PyValue.float ⟨0, 1⟩) = false) ∧
    (∀ (client : ClientConfig) (agent : AgentModel)
      (ags : List ActionGroupDescriptor) (fm : List (String × ToolFn))
      (sid : String) (rem : Nat) (it iid : Option String)
      (rcr : Option ReturnControlResult) (acc txt : String)
      (rc : ReturnControlPayload) (inp : FunctionInvocationInput)
      (rest : List FunctionInvocationInput) (fs : List OutputFile) (v : PyValue),
      agent.plugins = [] →
      scanEvents (client.remote (buildParams client agent ags sid it iid rcr)) =
        ⟨Option.some rc, txt, fs⟩ →
      rc.invocationInputs = inp :: rest →
      execute_function fm inp.function (convert_parameters inp.parameters) =
        Option.some v →
      pyTruthy v = false →
      invoke_agent_from client agent ags fm sid (rem + 1) it iid rcr acc =
        ⟨⟨joinText acc txt, fs⟩, 1⟩) := by
  refine ⟨⟨rfl, rfl, rfl, rfl, rfl, rfl, rfl⟩,
    fun client agent ags fm sid rem it iid rcr acc txt rc inp rest fs v
      hplug hscan hinp hexec hfalsy => ?_⟩
  exact invoke_agent_from_succ_finished
    (invokeTurn_executor_falsy hplug hscan hinp hexec hfalsy)

/-- Witness for C10: a tool returning the empty dictionary makes the loop
stop after one remote call with the accumulated text. -/
theorem C10_falsy_result_treated_as_failure_witness :
    invoke_agent_from falsyToolClient stubAgent stubActionGroups
        [("falsy_tool", falsyTool)] "session" 10 (Option.some "q")
        Option.none Option.none "" =
      ⟨⟨joinText "" "txt", []⟩, 1⟩ :=
  C10_falsy_result_treated_as_failure.2 falsyToolClient stubAgent
    stubActionGroups [("falsy_tool", falsyTool)] "session" 9 (Option.some "q")
    Option.none Option.none "" "txt" ⟨"inv-3", [⟨"falsy_tool", "G", []⟩]⟩
    ⟨"falsy_tool", "G", []⟩ [] [] (PyValue.dict []) rfl rfl rfl rfl rfl

/-! Fixtures for the hook-exception claim. -/

/-- A plugin whose pre-invoke hook raises. -/
def raisingPrePlugin : Plugin :=
  ⟨fun _ => Except.error "pre hook failed", fun evs => Except.ok evs,
    fun r => Except.ok r⟩

/-- A plugin whose post-invoke hook raises. -/
def raisingPostPlugin : Plugin :=
  ⟨fun p => Except.ok p, fun _ => Except.error "post hook failed",
    fun r => Except.ok r⟩

/-- The stub agent carrying the raising pre-invoke plugin. -/
def preHookAgent : AgentModel :=
  ⟨"agent", "model-id", "instructions", [], [], false, [],
    [raisingPrePlugin], []⟩

/-- The stub agent carrying the raising post-invoke plugin. -/
def postHookAgent : AgentModel :=
  ⟨"agent", "model-id", "instructions", [], [], false, [],
    [raisingPostPlugin], []⟩

/-- **C9.** An exception in a plugin hook propagates out of the hook chain
and is fatal for the turn: the turn aborts with the generic
"An error occurred" result, discarding the accumulated text and files —
unlike a tool-execution failure, which is caught at the executor boundary
and returns the accumulated text (C3). -/
theorem C9_hook_exception_fatal :
    (∀ (pl : Plugin) (rest : List Plugin) (p : RequestParams) (msg : String),
      pl.preInvoke p = Except.error msg →
      applyPreInvoke (pl :: rest) p = Except.error msg) ∧
    (∀ (pl : Plugin) (rest : List Plugin) (evs : List AgentEvent) (msg : String),
      pl.postInvoke evs = Except.error msg →
      applyPostInvoke (pl :: rest) evs = Except.error msg) ∧
    (∀ (client : ClientConfig) (agent : AgentModel)
      (ags : List ActionGroupDescriptor) (fm : List (String × ToolFn))
      (sid : String) (rem : Nat) (it iid : Option String)
      (rcr : Option ReturnControlResult) (acc msg : String),
      applyPreInvoke agent.plugins
          (buildParams client agent ags sid it iid rcr) = Except.error msg →
      invoke_agent_from client agent ags fm sid (rem + 1) it iid rcr acc =
        ⟨⟨"An error occurred: " ++ msg, []⟩, 0⟩) ∧
    (∀ (client : ClientConfig) (agent : AgentModel)
      (ags : List ActionGroupDescriptor) (fm : List (String × ToolFn))
      (sid : String) (rem : Nat) (it iid : Option String)
      (rcr : Option ReturnControlResult) (acc : String) (p2 : RequestParams)
      (msg : String),
      applyPreInvoke agent.plugins
          (buildParams client agent ags sid it iid rcr) = Except.ok p2 →
      applyPostInvoke agent.plugins (client.remote p2) = Except.error msg →
      invoke_agent_from client agent ags fm sid (rem + 1) it iid rcr acc =
        ⟨⟨"An error occurred: " ++ msg, []⟩, 1⟩) := by
  refine ⟨fun pl rest p msg h => ?_, fun pl rest evs msg h => ?_,
    fun client agent ags fm sid rem it iid rcr acc msg hpre => ?_,
    fun client agent ags fm sid rem it iid rcr acc p2 msg hpre hpost => ?_⟩
  · simp [applyPreInvoke, h]
  · simp [applyPostInvoke, h]
  · exact invoke_agent_from_succ_finished (invokeTurn_pre_hook_error hpre)
  · exact invoke_agent_from_succ_finished (invokeTurn_post_hook_error hpre hpost)

/-- Witness for C9: concrete raising pre- and post-invoke hooks abort the
turn with the generic error result, discarding the accumulated text. -/
theorem C9_hook_exception_fatal_witness :
    applyPreInvoke [raisingPrePlugin]
        (buildParams (stubClient 1) preHookAgent [] "session" Option.none
          Option.none Option.none) = Except.error "pre hook failed" ∧
    invoke_agent_from (stubClient 1) preHookAgent [] [] "session" 1
        (Option.some "q") Option.none Option.none "acc" =
      ⟨⟨"An error occurred: pre hook failed", []⟩, 0⟩ ∧
    invoke_agent_from (stubClient 1) postHookAgent [] [] "session" 1
        (Option.some "q") Option.none Option.none "acc" =
      ⟨⟨"An error occurred: post hook failed", []⟩, 1⟩ :=
  ⟨C9_hook_exception_fatal.1 raisingPrePlugin []
      (buildParams (stubClient 1) preHookAgent [] "session" Option.none
        Option.none Option.none) "pre hook failed" rfl,
    C9_hook_exception_fatal.2.2.1 (stubClient 1) preHookAgent [] [] "session" 0
      (Option.some "q") Option.none Option.none "acc" "pre hook failed" rfl,
    C9_hook_exception_fatal.2.2.2 (stubClient 1) postHookAgent [] [] "session" 0
      (Option.some "q") Option.none Option.none "acc"
      (buildParams (stubClient 1) postHookAgent [] "session" (Option.some "q")
        Option.none Option.none) "post hook failed" rfl rfl⟩

/-! ## Grouping lemmas for the schema builder -/

/-- Keys of a group map, in order. -/
def keysOf (m : List (String × List FuncInfo)) : List String :=
  m.map Prod.fst

/-- All stored function records of a group map, in group order. -/
def valsOf (m : List (String × List FuncInfo)) : List FuncInfo :=
  m.flatMap (fun p => p.2)

/-- Adding to an existing key leaves the key list unchanged. -/
theorem keysOf_addToGroupMap_mem {m : List (String × List FuncInfo)}
    {k : String} {fi : FuncInfo} (h : m.any (fun p => p.1 = k) = true) :
    keysOf (addToGroupMap m k fi) = keysOf m := by
  simp only [keysOf, addToGroupMap, h, if_true, List.map_map]
  exact List.map_congr_left (fun p _ => by by_cases hp : p.1 = k <;> simp [hp])

/-- Adding under a fresh key appends it to the key list. -/
theorem keysOf_addToGroupMap_new {m : List (String × List FuncInfo)}
    {k : String} {fi : FuncInfo} (h : m.any (fun p => p.1 = k) = false) :
    keysOf (addToGroupMap m k fi) = keysOf m ++ [k] := by
  simp [keysOf, addToGroupMap, h]

/-- The grouping step preserves distinctness of group names. -/
theorem nodup_keysOf_addToGroupMap {m : List (String × List FuncInfo)}
    {k : String} {fi : FuncInfo} (h : (keysOf m).Nodup) :
    (keysOf (addToGroupMap m k fi)).Nodup := by
  cases hany : m.any (fun p => p.1 = k) with
  | true => rw [keysOf_addToGroupMap_mem hany]; exact h
  | false =>
      rw [keysOf_addToGroupMap_new hany]
      refine h.append (List.nodup_singleton k) ?_
      intro x hx hk
      rcases List.mem_map.mp hx with ⟨p, hp, hpx⟩
      rcases List.mem_singleton.mp hk with rfl
      exact (List.any_eq_false.mp hany p hp) (by simpa using hpx)

/-- Appending a record to its (unique) existing group moves it to the end
of the stored records, up to permutation. -/
theorem valsOf_map_append {k : String} {fi : FuncInfo} :
    ∀ m : List (String × List FuncInfo), (keysOf m).Nodup →
      m.any (fun p => p.1 = k) = true →
      (valsOf (m.map (fun p => if p.1 = k then (p.1, p.2 ++ [fi]) else p))).Perm
        (valsOf m ++ [fi]) := by
  intro m
  induction m with
  | nil => intro _ h; simp at h
  | cons p rest ih =>
      intro hnd hany
      have hnd' : (keysOf rest).Nodup := by
        simpa [keysOf] using (List.nodup_cons.mp (by simpa [keysOf] using hnd)).2
      have hhd : p.1 ∉ keysOf rest := by
        have := List.nodup_cons.mp (show (p.1 :: keysOf rest).Nodup by
          simpa [keysOf] using hnd)
        exact this.1
      by_cases hp : p.1 = k
      · have hrest : rest.map (fun q => if q.1 = k then (q.1, q.2 ++ [fi]) else q) = rest := by
          have hcg : rest.map (fun q => if q.1 = k then (q.1, q.2 ++ [fi]) else q) =
              rest.map (fun q => q) := by
            refine List.map_congr_left (fun q hq => ?_)
            have hqk : ¬(q.1 = k) := by
              intro he
              exact hhd (by
                rw [hp, ← he]
                exact List.mem_map.mpr ⟨q, hq, rfl⟩)
            simp [hqk]
          simpa using hcg
        simp only [List.map_cons, hrest, hp, if_true, valsOf, List.flatMap_cons]
        rw [List.append_assoc, List.append_assoc]
        exact List.Perm.append_left p.2 List.perm_append_comm
      · have hany' : (rest.any fun q => q.1 = k) = true := by
          rcases List.any_eq_true.mp hany with ⟨q, hq, hqk⟩
          rcases List.mem_cons.mp hq with rfl | hq'
          · exact absurd (by simpa using hqk) hp
          · exact List.any_eq_true.mpr ⟨q, hq', hqk⟩
        simp only [List.map_cons, hp, if_false, valsOf, List.flatMap_cons]
        rw [List.append_assoc]
        exact List.Perm.append_left p.2 (ih hnd' hany')

/-- The grouping step appends the new record to the stored records, up to
permutation. -/
theorem valsOf_addToGroupMap {m : List (String × List FuncInfo)} {k : String}
    {fi : FuncInfo} (h : (keysOf m).Nodup) :
    (valsOf (addToGroupMap m k fi)).Perm (valsOf m ++ [fi]) := by
  cases hany : m.any (fun p => p.1 = k) with
  | true =>
      simp only [addToGroupMap, hany, if_true]
      exact valsOf_map_append m h hany
  | false =>
      simp only [addToGroupMap, hany]
      simp [valsOf, List.flatMap_append]

/-- The grouping fold keeps group names distinct and stores exactly the
records of the processed functions, up to permutation. -/
theorem groupFold_props (l : List FunctionModel) :
    ∀ m : List (String × List FuncInfo), (keysOf m).Nodup →
      (keysOf (l.foldl (fun m f => addToGroupMap m (groupKey f) (toFuncInfo f)) m)).Nodup ∧
      (valsOf (l.foldl (fun m f => addToGroupMap m (groupKey f) (toFuncInfo f)) m)).Perm
        (valsOf m ++ l.map toFuncInfo) := by
  induction l with
  | nil => intro m h; exact ⟨h, by simp⟩
  | cons f l ih =>
      intro m h
      simp only [List.foldl_cons, List.map_cons]
      obtain ⟨h1, h2⟩ := ih (addToGroupMap m (groupKey f) (toFuncInfo f))
        (nodup_keysOf_addToGroupMap h)
      refine ⟨h1, h2.trans ?_⟩
      have h3 := @valsOf_addToGroupMap m (groupKey f) (toFuncInfo f) h
      refine (h3.append_right (l.map toFuncInfo)).trans ?_
      rw [List.append_assoc]
      exact List.Perm.refl _

/-- After the grouping step, some entry holds the new key and contains the
new record. -/
theorem addToGroupMap_mem_new (m : List (String × List FuncInfo)) (k : String)
    (fi : FuncInfo) :
    ∃ p ∈ addToGroupMap m k fi, p.1 = k ∧ fi ∈ p.2 := by
  cases hany : m.any (fun p => p.1 = k) with
  | true =>
      rcases List.any_eq_true.mp hany with ⟨q, hq, hqk⟩
      have hqk' : q.1 = k := by simpa using hqk
      refine ⟨(q.1, q.2 ++ [fi]), ?_, hqk', by simp⟩
      simp only [addToGroupMap, hany, if_true]
      have he : (fun p => if p.1 = k then (p.1, p.2 ++ [fi]) else p) q =
          (q.1, q.2 ++ [fi]) := by simp [hqk']
      exact he ▸ List.mem_map_of_mem _ hq
  | false =>
      refine ⟨(k, [fi]), ?_, rfl, by simp⟩
      simp [addToGroupMap, hany]

/-- The grouping step keeps every existing entry's key and contents
(possibly extended). -/
theorem addToGroupMap_mem_preserved {m : List (String × List FuncInfo)}
    {p : String × List FuncInfo} (hp : p ∈ m) (k : String) (fi : FuncInfo) :
    ∃ q ∈ addToGroupMap m k fi, q.1 = p.1 ∧ ∀ x ∈ p.2, x ∈ q.2 := by
  cases hany : m.any (fun r => r.1 = k) with
  | true =>
      by_cases hpk : p.1 = k
      · refine ⟨(p.1, p.2 ++ [fi]), ?_, rfl, fun x hx => by simp [hx]⟩
        simp only [addToGroupMap, hany, if_true]
        have he : (fun r => if r.1 = k then (r.1, r.2 ++ [fi]) else r) p =
            (p.1, p.2 ++ [fi]) := by simp [hpk]
        exact he ▸ List.mem_map_of_mem _ hp
      · refine ⟨p, ?_, rfl, fun x hx => hx⟩
        simp only [addToGroupMap, hany, if_true]
        have he : (fun r => if r.1 = k then (r.1, r.2 ++ [fi]) else r) p = p := by
          simp [hpk]
        exact he ▸ List.mem_map_of_mem _ hp
  | false =>
      exact ⟨p, by simp [addToGroupMap, hany, hp], rfl, fun x hx => hx⟩

/-- The grouping fold keeps every existing entry's key and contents. -/
theorem groupFold_mem_preserved (l : List FunctionModel) :
    ∀ (m : List (String × List FuncInfo)) (p : String × List FuncInfo),
      p ∈ m →
      ∃ q ∈ l.foldl (fun m f => addToGroupMap m (groupKey f) (toFuncInfo f)) m,
        q.1 = p.1 ∧ ∀ x ∈ p.2, x ∈ q.2 := by
  induction l with
  | nil => intro m p hp; exact ⟨p, hp, rfl, fun x hx => hx⟩
  | cons f l ih =>
      intro m p hp
      obtain ⟨q, hq, hqk, hqsub⟩ :=
        addToGroupMap_mem_preserved hp (groupKey f) (toFuncInfo f)
      obtain ⟨q2, hq2, hq2k, hq2sub⟩ := ih _ q hq
      exact ⟨q2, hq2, hq2k.trans hqk, fun x hx => hq2sub x (hqsub x hx)⟩

/-- Every processed function's record lands in the entry bearing its group
key. -/
theorem groupFold_mem_of_elem (l : List FunctionModel) :
    ∀ (m : List (String × List FuncInfo)) (f : FunctionModel), f ∈ l →
      ∃ p ∈ l.foldl (fun m f => addToGroupMap m (groupKey f) (toFuncInfo f)) m,
        p.1 = groupKey f ∧ toFuncInfo f ∈ p.2 := by
  induction l with
  | nil => intro m f hf; simp at hf
  | cons g l ih =>
      intro m f hf
      rcases List.mem_cons.mp hf with rfl | hf'
      · obtain ⟨p, hp, hpk, hpfi⟩ :=
          addToGroupMap_mem_new m (groupKey f) (toFuncInfo f)
        obtain ⟨q, hq, hqk, hqsub⟩ := groupFold_mem_preserved l _ p hp
        exact ⟨q, hq, hqk.trans hpk, hqsub _ hpfi⟩
      · exact ih _ f hf'

/-- **C7.** For an agent with no pre-built action groups and the code
interpreter disabled, the schema builder partitions the functions by group
name: the emitted function entries are a permutation of the input
functions' entries, group names are distinct, every function without an
explicit group lands in the single `DefaultActions` group, and an empty
function set yields an empty descriptor list. -/
theorem C7_schema_builder_partition :
    ∀ agent : AgentModel, agent.action_groups = [] →
      agent.enable_code_interpreter = false →
      (((build_action_groups agent).flatMap
          (fun g => g.functions.getD [])).Perm
        (agent.functions.map
          (fun f => mkFunctionDef f.name f.description f.paramInfo))) ∧
      ((build_action_groups agent).map (fun g => g.actionGroupName)).Nodup ∧
      (∀ f ∈ agent.functions, f.action_group = Option.none →
        ∃ g ∈ build_action_groups agent, g.actionGroupName = "DefaultActions" ∧
          mkFunctionDef f.name f.description f.paramInfo ∈ g.functions.getD []) ∧
      (agent.functions = [] → build_action_groups agent = []) := by
  intro agent h1 h2
  have hb : build_action_groups agent =
      (buildGroupMap agent.functions).map fallbackGroupDescriptor := by
    simp [build_action_groups, h1, h2]
  obtain ⟨hnd, hperm⟩ := groupFold_props agent.functions [] (by simp [keysOf])
  refine ⟨?_, ?_, ?_, ?_⟩
  · rw [hb]
    have hflat : ((buildGroupMap agent.functions).map
        fallbackGroupDescriptor).flatMap (fun g => g.functions.getD []) =
        (valsOf (buildGroupMap agent.functions)).map
          (fun fi => mkFunctionDef fi.name fi.description fi.parameters) := by
      rw [List.flatMap_map]
      simp only [valsOf, List.map_flatMap]
      rfl
    rw [hflat]
    have := hperm.map (fun fi => mkFunctionDef fi.name fi.description fi.parameters)
    simpa [List.map_map, buildGroupMap, Function.comp] using this
  · rw [hb]
    have hk : ((buildGroupMap agent.functions).map fallbackGroupDescriptor).map
        (fun g => g.actionGroupName) = keysOf (buildGroupMap agent.functions) := by
      simp only [List.map_map, keysOf]
      rfl
    rw [hk]
    simpa [buildGroupMap] using hnd
  · intro f hf hfnone
    have hkey : groupKey f = "DefaultActions" := by simp [groupKey, hfnone]
    obtain ⟨p, hp, hpk, hpfi⟩ := groupFold_mem_of_elem agent.functions [] f hf
    refine ⟨fallbackGroupDescriptor p, ?_, ?_, ?_⟩
    · rw [hb]
      exact List.mem_map_of_mem _ (by simpa [buildGroupMap] using hp)
    · exact hpk.trans hkey
    · exact List.mem_map_of_mem
        (fun fi => mkFunctionDef fi.name fi.description fi.parameters) hpfi
  · intro hfe
    rw [hb, hfe]
    rfl

/-- An agent with three functions, two of them without an explicit group. -/
def partitionAgent : AgentModel :=
  ⟨"agent", "model-id", "instr",
    [⟨"f1", "d1", stubTool, Option.none, []⟩,
      ⟨"f2", "d2", stubTool, Option.some "MathActions", []⟩,
      ⟨"f3", "d3", stubTool, Option.none, []⟩],
    [], false, [], [], []⟩

/-- Witness for C7 at a concrete three-function agent. -/
theorem C7_schema_builder_partition_witness :
    (((build_action_groups partitionAgent).flatMap
        (fun g => g.functions.getD [])).Perm
      (partitionAgent.functions.map
        (fun f => mkFunctionDef f.name f.description f.paramInfo))) ∧
    ((build_action_groups partitionAgent).map (fun g => g.actionGroupName)).Nodup ∧
    (∀ f ∈ partitionAgent.functions, f.action_group = Option.none →
      ∃ g ∈ build_action_groups partitionAgent,
        g.actionGroupName = "DefaultActions" ∧
        mkFunctionDef f.name f.description f.paramInfo ∈ g.functions.getD []) ∧
    (partitionAgent.functions = [] → build_action_groups partitionAgent = []) :=
  C7_schema_builder_partition partitionAgent rfl rfl

end BedrockSDK
